import Mathlib

/-!
# Verification of the GB Track Specialist scheduling and result-reconciliation engine

Shallow embedding, in Lean 4, of the scheduling / result-tracking core of the
`Greyhound_Racing_GB_Track_Specialist` repository:

* `run_continuous_scheduled.py` — `ScheduledGBBettingRunner._schedule_race` and
  `_process_scheduled_race` (dedup, defer, immediate-fire, reservation release);
* `gb_betting_system.py` — `GBBettingSystem.process_race`, `_result_checker_loop`,
  `_check_race_result` (race processing, pending-result sweep, reconciliation);
* `gb_track_specialist_predictor.py` — `identify_betting_opportunities` and
  `_create_opportunity` (strategy classification of the top predicted runner);
* `database_helper.py` — the parameter lists of the `DatabaseHelper` methods, needed
  to model the Python call-binding step at the `self.db.log_race(...)` /
  `self.db.log_bet(...)` call sites in `process_race`.

Modelling conventions:
* wall-clock instants are `Int` epoch seconds (the Python code parses ISO timestamps
  with `datetime.fromisoformat` and only ever subtracts / compares them);
* Python floats (odds, stakes, probabilities) are modelled as `ℚ`: the claims under
  check are about which formulas the code computes, not about IEEE rounding;
* Python dicts keyed by `market_id` are association lists with distinct keys
  (`pending_results`) or `Finset String` key sets (`scheduled_races`, the key set of
  `active_timers`);
* external collaborators (the Betfair HTTP client, the CatBoost model, the
  PostgreSQL connection, file I/O and logging) are inputs to the embedded functions:
  a hydration result, a per-runner prediction list, a market-book outcome query;
* each runner's single-threaded critical sections (`scheduled_races_lock`,
  `timers_lock`) serialize the read-modify-write steps, so a call is modelled as a
  pure state-transition function together with an explicit action describing the
  externally visible effect (timer armed / processed synchronously / deferred / no-op).
-/

/-! ## Python call binding

`gb_betting_system.py` calls two `DatabaseHelper` methods with keyword arguments.
In Python, a call supplying a keyword argument whose name is not among the callee's
parameters raises `TypeError` before the callee body runs, so the callee's internal
`try/except` cannot intercept it.  We record the parameter names of the callee
(besides `self`) and the keyword names used at the call site, and model the binding
check. -/

/-- Python keyword-argument binding succeeds iff every keyword name used by the
caller is a parameter name of the callee (no `**kwargs` is declared by any
`DatabaseHelper` method). -/
def kwargsBindOk (params kwargs : List String) : Bool :=
  kwargs.all params.contains

/-- Parameter names (besides `self`) of `DatabaseHelper.log_race`
(`database_helper.py` line 101): a single dict. -/
def log_race_params : List String := ["race_data"]

/-- Keyword-argument names used at the `self.db.log_race(...)` call site in
`GBBettingSystem.process_race` (`gb_betting_system.py` lines 286–294). -/
def log_race_call_kwargs : List String :=
  ["market_id", "venue", "race_time", "distance", "race_grade", "num_runners",
   "session_id"]

/-- Parameter names (besides `self`) of `DatabaseHelper.log_bet`
(`database_helper.py` line 270): a single dict. -/
def log_bet_params : List String := ["bet_data"]

/-- Keyword-argument names used at the `self.db.log_bet(...)` call site in
`GBBettingSystem.process_race` (`gb_betting_system.py` lines 364–373). -/
def log_bet_call_kwargs : List String :=
  ["market_id", "selection_id", "runner_name", "odds", "stake", "strategy",
   "win_probability", "session_id"]

/-- Body of `DatabaseHelper.log_race` (`database_helper.py` lines 101–146), once a
`race_data` dict has been bound: if no database connection, return `False`; else run
the SQL inside `try/except`, converting any failure into a logged `False`.  The SQL
execution itself is an external effect, abstracted as its success/failure. -/
def DatabaseHelper_log_race (connected : Bool) (sqlExec : Except String Unit) : Bool :=
  if !connected then false
  else
    match sqlExec with
    | .ok _ => true
    | .error _ => false

/-! ## Data model -/

/-- A runner row as assembled by `GBBettingSystem.get_race_data`
(`gb_betting_system.py` lines 176–183).  `ltp` is the best available back price and
may be absent. -/
structure Runner where
  selection_id : Int
  runner_name : String
  trap : Option Int
  ltp : Option ℚ
  deriving DecidableEq, Repr

/-- A hydrated race dict as assembled by `GBBettingSystem.get_race_data`
(`gb_betting_system.py` lines 129–187); `race_time` is the parsed
`marketStartTime`. -/
structure RaceData where
  market_id : String
  venue : String
  race_time : Int
  race_grade : String
  runners : List Runner
  deriving DecidableEq, Repr

/-- One per-runner prediction from `GBEnsemblePredictor.predict_race`
(`gb_ensemble_predictor_v2.py` lines 242–253): `ltp` is the runner's odds feature
and `win_probability_calibrated` the calibrated model output (the `'calibrated'`
entry of the `win_probability` dict).  The model itself is external; predictions are
inputs. -/
structure Prediction where
  selection_id : Int
  runner_name : String
  trap : Option Int
  ltp : ℚ
  win_probability_calibrated : ℚ
  deriving DecidableEq, Repr

/-- An opportunity dict as built by
`GBTrackSpecialistPredictor._create_opportunity`
(`gb_track_specialist_predictor.py` lines 162–199); the nested `race_info` and the
`identified_time` wall-clock stamp are elided. -/
structure Opportunity where
  market_id : String
  selection_id : Int
  runner_name : String
  trap : Option Int
  runner_odds : ℚ
  win_probability : ℚ
  expected_value : ℚ
  strategy : String
  strategy_subtype : String
  stake_recommendation : ℚ
  deriving DecidableEq, Repr

/-- A bet dict as appended to `bets_placed_log`.  The reconciliation fields
(`won`, `returns`, `profit`, `winner_selection_id`) are absent (`none`) until
`_check_race_result` writes them. -/
structure Bet where
  market_id : String
  selection_id : Int
  runner_name : String
  runner_odds : ℚ
  stake : ℚ
  winner_selection_id : Option Int := none
  won : Option Bool := none
  returns : Option ℚ := none
  profit : Option ℚ := none
  deriving DecidableEq, Repr

/-- An entry of `GBBettingSystem.pending_results` (`gb_betting_system.py` lines
379–384): only the computed `check_time` matters to the sweep; the `race_data` and
`opportunities` snapshots are carried by the owning map and never read by the
sweep's selection logic. -/
structure PendingEntry where
  check_time : Int
  deriving DecidableEq, Repr

/-! ## Strategy classification (`gb_track_specialist_predictor.py`) -/

/-- Mid-range strategy lower odds bound (`midrange_config['min_odds']`, line 56). -/
def midrange_min_odds : ℚ := 5
/-- Mid-range strategy upper odds bound (`midrange_config['max_odds']`, line 57). -/
def midrange_max_odds : ℚ := 10
/-- Mid-range probability threshold (`midrange_config['min_probability']`, line 58). -/
def midrange_min_probability : ℚ := 35 / 100
/-- Longshot strategy lower odds bound (`longshot_config['min_odds']`, line 66). -/
def longshot_min_odds : ℚ := 10
/-- Longshot strategy upper odds bound (`longshot_config['max_odds']`, line 67). -/
def longshot_max_odds : ℚ := 20
/-- Longshot probability threshold (`longshot_config['min_probability']`, line 68). -/
def longshot_min_probability : ℚ := 25 / 100
/-- Longshot high-confidence threshold (`longshot_config['safer_probability']`,
line 69). -/
def longshot_safer_probability : ℚ := 30 / 100

/-- `GBTrackSpecialistPredictor.MIDRANGE_PREFERRED_CATEGORIES` (line 45). -/
def MIDRANGE_PREFERRED_CATEGORIES : List String :=
  ["HC", "A6", "A7", "D3", "A3", "A5", "A1", "A9"]

/-- `leadMatch pat s` is true iff `pat` is an initial segment of `s`. -/
def leadMatch : List Char → List Char → Bool
  | [], _ => true
  | _ :: _, [] => false
  | p :: ps, c :: cs => p == c && leadMatch ps cs

/-- `subList pat s` is true iff `pat` occurs contiguously inside `s`. -/
def subList (pat : List Char) : List Char → Bool
  | [] => pat.isEmpty
  | c :: cs => leadMatch pat (c :: cs) || subList pat cs

/-- The Python membership test `pat in s` on strings: substring containment. -/
def pyInStr (pat s : String) : Bool := subList pat.data s.data

/-- Python's `max(xs, key=f)`: the first element attaining the maximal key
(`max` replaces its candidate only on a strictly greater key); `none` on the empty
list (where Python raises, guarded at line 98 of the source). -/
def pyMaxBy {α : Type} (key : α → ℚ) : List α → Option α
  | [] => none
  | x :: xs => some (xs.foldl (fun best y => if key best < key y then y else best) x)

/-- `GBTrackSpecialistPredictor._create_opportunity`
(`gb_track_specialist_predictor.py` lines 162–199): expected value
`probability * odds - 1`; strategy and stake from the Python substring test
`'MIDRANGE' in strategy_subtype` (lines 171–176). -/
def create_opportunity (runner : Prediction) (market_id : String)
    (strategy_subtype : String) : Opportunity :=
  let odds := runner.ltp
  let probability := runner.win_probability_calibrated
  let isMidrange := pyInStr "MIDRANGE" strategy_subtype
  { market_id := market_id
    selection_id := runner.selection_id
    runner_name := runner.runner_name
    trap := runner.trap
    runner_odds := odds
    win_probability := probability
    expected_value := probability * odds - 1
    strategy := if isMidrange then "MIDRANGE" else "LONGSHOT"
    strategy_subtype := strategy_subtype
    stake_recommendation := if isMidrange then 10 else 5 }

/-- `GBTrackSpecialistPredictor.identify_betting_opportunities`
(`gb_track_specialist_predictor.py` lines 80–160): take the top predicted runner
(first maximiser of the calibrated probability), test the mid-range odds band
`5.0 <= odds <= 10.0` first, `elif` the longshot band `10.0 <= odds <= 20.0`, apply
the band's probability threshold, and return a zero-or-one element list.  The
per-race `race_grade` string decides preferred-category labelling inside the
mid-range branch. -/
def identify_betting_opportunities (race_grade : String) (market_id : String)
    (predictions : List Prediction) : List Opportunity :=
  match pyMaxBy (fun p => p.win_probability_calibrated) predictions with
  | none => []
  | some top_runner =>
    let odds := top_runner.ltp
    let probability := top_runner.win_probability_calibrated
    let opportunity : Option Opportunity :=
      if midrange_min_odds ≤ odds ∧ odds ≤ midrange_max_odds then
        if midrange_min_probability ≤ probability then
          if race_grade ∈ MIDRANGE_PREFERRED_CATEGORIES then
            some (create_opportunity top_runner market_id "MIDRANGE_PREFERRED")
          else
            some (create_opportunity top_runner market_id "MIDRANGE_STANDARD")
        else none
      else if longshot_min_odds ≤ odds ∧ odds ≤ longshot_max_odds then
        if longshot_min_probability ≤ probability then
          some (create_opportunity top_runner market_id
            (if longshot_safer_probability ≤ probability then "LONGSHOT_HIGH"
             else "LONGSHOT_MEDIUM"))
        else none
      else none
    match opportunity with
    | some opp => [opp]
    | none => []

/-! ## Race processor (`gb_betting_system.py`, `process_race`) -/

/-- `GBBettingSystem.result_check_delay_minutes` (`gb_betting_system.py` line 73). -/
def result_check_delay_minutes : Int := 45

/-- The state of a `GBBettingSystem` instance touched by `process_race` and the
result checker: the in-memory session logs and the pending-result map
(`gb_betting_system.py` lines 76–80).  `all_predictions_log`, `race_logs` and the
session directory (file I/O) are elided: no claim reads them and no control flow
depends on them. -/
structure SysState where
  all_races_log : List RaceData
  all_runners_log : List Runner
  bets_placed_log : List Bet
  pending_results : List (String × PendingEntry)
  deriving DecidableEq, Repr

/-- How a call to `GBBettingSystem.process_race` terminates: a returned
`{'status': 'ERROR', ...}` dict, a returned normal result dict (with the counts the
dict carries), or an uncaught Python exception propagating to the caller. -/
inductive ProcOutcome where
  | errorResult (message : String)
  | ok (opportunities_identified : Nat) (bets_placed : Nat)
  | raised (err : String)
  deriving DecidableEq, Repr

/-- `GBBettingSystem.place_bet` in dry-run mode (`gb_betting_system.py` lines
403–420): build a `SIMULATED` bet dict from the opportunity.  (The live branch only
changes the external transport; the runner under study defaults to dry run.) -/
def place_bet_dry (opp : Opportunity) : Bet :=
  { market_id := opp.market_id
    selection_id := opp.selection_id
    runner_name := opp.runner_name
    runner_odds := opp.runner_odds
    stake := opp.stake_recommendation }

/-- Python dict assignment `self.pending_results[market_id] = entry`: replace any
existing binding for the key, else append. -/
def pendingInsert (pending : List (String × PendingEntry)) (mid : String)
    (e : PendingEntry) : List (String × PendingEntry) :=
  (pending.filter (fun p => p.1 ≠ mid)) ++ [(mid, e)]

/-- The bet-placement loop of `process_race` (`gb_betting_system.py` lines
355–373): for each opportunity, place the (dry-run) bet, append it to
`bets_placed_log`, and — since a `SIMULATED` status is not `'ERROR'` — call
`self.db.log_bet(market_id=..., ...)`.  That call binds keyword arguments against
`DatabaseHelper.log_bet(self, bet_data)`; if binding fails, Python raises
`TypeError` out of the loop with the bets appended so far.  Returns the grown log
and the error, if one was raised. -/
def bet_loop : List Opportunity → List Bet → List Bet × Option String
  | [], acc => (acc, none)
  | opp :: rest, acc =>
    let acc' := acc ++ [place_bet_dry opp]
    if kwargsBindOk log_bet_params log_bet_call_kwargs then
      bet_loop rest acc'
    else
      (acc', some "TypeError: log_bet() got an unexpected keyword argument 'market_id'")

/-- `GBBettingSystem.process_race` (`gb_betting_system.py` lines 247–397).
External inputs: the hydration result (`get_race_data`, `none` when it failed) and
the per-runner prediction list produced by the external model.  Steps, in source
order: on hydration failure return the `ERROR` dict (line 257) touching no state;
otherwise append the race and its runners to the session logs (lines 266–283), call
`self.db.log_race(market_id=..., ...)` — whose keyword binding against
`DatabaseHelper.log_race(self, race_data)` is checked here (lines 286–294) —, run
the opportunity identification, the prediction logging (`db.log_predictions` binds
positionally and its body never raises), the bet loop, and finally enroll the
market in `pending_results` with `check_time = race_time + result_check_delay_minutes`
(lines 378–384) and return the result dict. -/
def process_race (st : SysState) (market_id : String) (hydration : Option RaceData)
    (predictions : List Prediction) : SysState × ProcOutcome :=
  match hydration with
  | none => (st, .errorResult "Could not fetch race data")
  | some race_data =>
    let st1 : SysState :=
      { st with
        all_races_log := st.all_races_log ++ [race_data]
        all_runners_log := st.all_runners_log ++ race_data.runners }
    if kwargsBindOk log_race_params log_race_call_kwargs then
      let opportunities :=
        identify_betting_opportunities race_data.race_grade race_data.market_id
          predictions
      match bet_loop opportunities st1.bets_placed_log with
      | (bets', some err) =>
        ({ st1 with bets_placed_log := bets' }, .raised err)
      | (bets', none) =>
        let entry : PendingEntry :=
          ⟨race_data.race_time + result_check_delay_minutes * 60⟩
        ({ st1 with
            bets_placed_log := bets'
            pending_results := pendingInsert st1.pending_results market_id entry },
         .ok opportunities.length opportunities.length)
    else
      (st1, .raised "TypeError: log_race() got an unexpected keyword argument 'market_id'")

/-! ## Scheduler (`run_continuous_scheduled.py`) -/

/-- The configuration of `ScheduledGBBettingRunner` (`run_continuous_scheduled.py`
lines 37–51). -/
structure SchedConfig where
  scan_interval_minutes : Int := 15
  target_minutes_before_race : Int := 1
  deriving DecidableEq, Repr

/-- The scheduling state of `ScheduledGBBettingRunner`
(`run_continuous_scheduled.py` lines 56–60): the dedup set `scheduled_races` and the
key set of the `active_timers` dict. -/
structure SchedState where
  scheduled_races : Finset String
  active_timers : Finset String
  deriving DecidableEq

/-- A race record handed to `_schedule_race` by the scan loop. -/
structure RaceRec where
  market_id : String
  venue : String
  race_time : Int
  deriving DecidableEq, Repr

/-- The externally visible effect of one `_schedule_race` call. -/
inductive SchedAction where
  | noop
  | processedNow
  | deferred
  | timerArmed (delay_seconds : Int)
  deriving DecidableEq, Repr

/-- `ScheduledGBBettingRunner._process_scheduled_race`
(`run_continuous_scheduled.py` lines 120–150): run `system.process_race` inside
`try` — `pr` is its outcome, and a `raised` outcome is caught by the `except`
clause, which only logs — then, in `finally` (reached on the normal and the
exceptional path alike, which is why `pr` does not influence the resulting state),
discard the market from `scheduled_races` and pop it from `active_timers`
(`dict.pop` with a default leaves an absent key untouched). -/
def process_scheduled_race (st : SchedState) (market_id : String)
    (pr : ProcOutcome) : SchedState :=
  let _caught_or_returned := pr
  { scheduled_races := st.scheduled_races.erase market_id
    active_timers := st.active_timers.erase market_id }

/-- `ScheduledGBBettingRunner._schedule_race` (`run_continuous_scheduled.py` lines
72–118).  `pr` is the outcome `system.process_race` would produce if invoked (used
only on the synchronous path).  Steps: if the market is already in
`scheduled_races`, return (dedup no-op); otherwise reserve it, compute
`delay_seconds = (race_time - target_minutes_before_race*60) - now`; if negative,
run `_process_scheduled_race` synchronously; if greater than
`scan_interval_minutes*60`, discard the reservation (defer to the next poll);
otherwise record the market in `active_timers` and arm a one-shot timer for
`delay_seconds`. -/
def schedule_race (cfg : SchedConfig) (st : SchedState) (race : RaceRec)
    (now : Int) (pr : ProcOutcome) : SchedState × SchedAction :=
  if race.market_id ∈ st.scheduled_races then
    (st, .noop)
  else
    let st1 : SchedState :=
      { st with scheduled_races := insert race.market_id st.scheduled_races }
    let process_time := race.race_time - cfg.target_minutes_before_race * 60
    let delay_seconds := process_time - now
    if delay_seconds < 0 then
      (process_scheduled_race st1 race.market_id pr, .processedNow)
    else if delay_seconds > cfg.scan_interval_minutes * 60 then
      ({ st1 with scheduled_races := st1.scheduled_races.erase race.market_id },
       .deferred)
    else
      ({ st1 with active_timers := insert race.market_id st1.active_timers },
       .timerArmed delay_seconds)

/-! ## Result tracker (`gb_betting_system.py`, `_result_checker_loop` and
`_check_race_result`) -/

/-- The possible outcomes of the market-book query issued by `_check_race_result`
(`gb_betting_system.py` line 569): the HTTP call raised, returned nothing, or
returned a book whose runners carry `(selectionId, status)` pairs. -/
inductive OutcomeQuery where
  | raises (err : String)
  | noBook
  | book (runners : List (Int × String))
  deriving DecidableEq, Repr

/-- Winner extraction (`gb_betting_system.py` lines 576–580): the first runner whose
status is `'WINNER'`, if any (the loop breaks at the first hit). -/
def find_winner (runners : List (Int × String)) : Option Int :=
  (runners.find? (fun r => r.2 == "WINNER")).map Prod.fst

/-- The per-bet reconciliation of `_check_race_result` (`gb_betting_system.py`
lines 600–613), applied to every entry of `bets_placed_log`: entries of other
markets are untouched; a matching entry gets `won = (selection_id == winner_id)`
(with `winner_id = None` comparing unequal to every selection id, as in Python),
`returns = stake * runner_odds` when won else `0`, and
`profit = returns - stake` when won else `-stake`. -/
def update_bet (mid : String) (winner_id : Option Int) (bet : Bet) : Bet :=
  if bet.market_id == mid then
    let won : Bool :=
      match winner_id with
      | some w => bet.selection_id == w
      | none => false
    { bet with
      winner_selection_id := winner_id
      won := some won
      returns := some (if won then bet.stake * bet.runner_odds else 0)
      profit := some (if won then bet.stake * bet.runner_odds - bet.stake
                      else -bet.stake) }
  else bet

/-- The outcome annotations the races-log loop of `_check_race_result` writes onto
a matching `all_races_log` entry (`gb_betting_system.py` lines 587–597): the new
dict keys `winner_selection_id` and `result_checked_time` (the wall-clock stamp is
modelled as the Boolean `result_checked`) on every matching entry, and, when the
winning runner is found among the entry's logged runners, `winner_name` and
`winner_odds` (the runner's logged `ltp`, itself possibly `None`).  `none` in the
two-level options means the key was not written. -/
structure RaceAnnotations where
  winner_selection_id : Option Int
  result_checked : Bool
  winner_name : Option String
  winner_odds : Option (Option ℚ)
  deriving DecidableEq, Repr

/-- One iteration of the races-log loop on a matching entry (`gb_betting_system.py`
lines 588–597): write the winner id and the checked time; scan the entry's runners
for the first one with `selection_id == winner_id` (no hit when `winner_id` is
`None`, since `int == None` is false), and at a hit write its name and its logged
`ltp`, then format that `ltp` into the log line with `:.2f` — when the `ltp` is
`None` (possible per `get_race_data` lines 160–161) that format raises `TypeError`.
The `.error` side carries the annotations written before the raise (the winner's
name and its `None` odds are assigned on lines 594–595, before line 596 raises). -/
def annotate_race (winner_id : Option Int) (race : RaceData) :
    Except RaceAnnotations RaceAnnotations :=
  let base : RaceAnnotations :=
    { winner_selection_id := winner_id, result_checked := true,
      winner_name := none, winner_odds := none }
  match winner_id with
  | none => .ok base
  | some w =>
    match race.runners.find? (fun r => r.selection_id == w) with
    | none => .ok base
    | some r =>
      match r.ltp with
      | some odds =>
        .ok { base with
              winner_name := some r.runner_name
              winner_odds := some (some odds) }
      | none =>
        .error { base with
                 winner_name := some r.runner_name
                 winner_odds := some none }

/-- The races-log loop of `_check_race_result` (`gb_betting_system.py` lines
587–597), run over the `all_races_log` entries (each carried with its annotations,
`none` while unannotated) in order: non-matching entries are skipped, matching ones
are annotated, and a `TypeError` raised while annotating aborts the loop there —
`.error` returns the list as mutated so far, entries past the raise untouched. -/
def races_log_loop (mid : String) (winner_id : Option Int) :
    List (RaceData × Option RaceAnnotations) →
    Except (List (RaceData × Option RaceAnnotations))
           (List (RaceData × Option RaceAnnotations))
  | [] => .ok []
  | entry :: rest =>
    if entry.1.market_id == mid then
      match annotate_race winner_id entry.1 with
      | .ok ann =>
        match races_log_loop mid winner_id rest with
        | .ok rest' => .ok ((entry.1, some ann) :: rest')
        | .error rest' => .error ((entry.1, some ann) :: rest')
      | .error ann => .error ((entry.1, some ann) :: rest)
    else
      match races_log_loop mid winner_id rest with
      | .ok rest' => .ok (entry :: rest')
      | .error rest' => .error (entry :: rest')

/-- The condition under which annotating a race entry against winner `w` raises:
the first logged runner with `selection_id == w` exists and its `ltp` is absent. -/
def winner_ltp_missing (w : Int) (race : RaceData) : Bool :=
  match race.runners.find? (fun r => r.selection_id == w) with
  | some r => r.ltp.isNone
  | none => false

/-- `GBBettingSystem._check_race_result` (`gb_betting_system.py` lines 564–616).
The whole body is wrapped in `try/except`, so the function never propagates: a
raising query updates nothing, an empty book returns early (line 572).  Otherwise
the winner is located (`find_winner`), the `db.update_race_result` call runs when a
winner was found (it binds positionally and its body converts its own failure into
`False`, so it cannot raise), then the races-log loop (lines 587–597) runs and —
only if it did not raise the `ltp`-formatting `TypeError` — every matching bet of
`bets_placed_log` is updated (lines 600–613; the bets loop formats only the
computed float `profit`, so it raises nothing itself).  A `TypeError` from the
races-log loop is caught by the function-level `except` at line 615: the races log
keeps its partial mutation and no bet is updated. -/
def check_race_result (mid : String) (q : OutcomeQuery)
    (races : List (RaceData × Option RaceAnnotations)) (bets : List Bet) :
    List (RaceData × Option RaceAnnotations) × List Bet :=
  match q with
  | .raises _ => (races, bets)
  | .noBook => (races, bets)
  | .book runners =>
    let winner_id := find_winner runners
    match races_log_loop mid winner_id races with
    | .error races2 => (races2, bets)
    | .ok races2 => (races2, bets.map (update_bet mid winner_id))

/-- The due-market snapshot taken by one wake of `_result_checker_loop`
(`gb_betting_system.py` lines 549–552): the keys of every pending entry whose
`check_time <= now`. -/
def markets_to_check (now : Int) (pending : List (String × PendingEntry)) :
    List String :=
  (pending.filter (fun p => decide (p.2.check_time ≤ now))).map Prod.fst

/-- One wake of `GBBettingSystem._result_checker_loop` (`gb_betting_system.py`
lines 544–558): snapshot the due markets, then for each one run
`_check_race_result` and `del` the entry.  The checks never touch
`pending_results`, and the dict's keys are distinct, so the net effect on the map is
the removal of every due key; the races log and the bets log are folded through the
per-market checks (each against its own query outcome `query mid`). -/
def result_checker_sweep (now : Int) (pending : List (String × PendingEntry))
    (query : String → OutcomeQuery)
    (races : List (RaceData × Option RaceAnnotations)) (bets : List Bet) :
    List (String × PendingEntry) ×
      List (RaceData × Option RaceAnnotations) × List Bet :=
  let due := markets_to_check now pending
  let rb := due.foldl
    (fun rb mid => check_race_result mid (query mid) rb.1 rb.2) (races, bets)
  let pending' := pending.filter (fun p => decide (¬ p.2.check_time ≤ now))
  (pending', rb)

/-! ## Concrete fixtures used by the witnesses -/

/-- The default runner configuration (`--interval 15 --target 1`). -/
def cfgW : SchedConfig := {}

/-- A scheduler state in which market `1.230000001` is already scheduled. -/
def stW1 : SchedState := { scheduled_races := {"1.230000001"}, active_timers := ∅ }

/-- A race record for the already-scheduled market. -/
def raceW1 : RaceRec :=
  { market_id := "1.230000001", venue := "Romford", race_time := 1000 }

/-- The empty scheduler state. -/
def stEmpty : SchedState := { scheduled_races := ∅, active_timers := ∅ }

/-- A race far in the future: delay `10000 - 60 - 0 = 9940 s` exceeds the
`15 * 60 = 900 s` scan window. -/
def raceW8 : RaceRec := { market_id := "1.80000008", venue := "Hove", race_time := 10000 }

/-- A race already past its processing time: delay `0 - 60 - 1000 = -1060 s`. -/
def raceW9 : RaceRec := { market_id := "1.90000009", venue := "Swindon", race_time := 0 }

/-- A state holding a reservation and a timer handle for market `1.20000002`. -/
def stW2 : SchedState :=
  { scheduled_races := {"1.20000002"}, active_timers := {"1.20000002"} }

/-- A re-offer of market `1.20000002` with delay `600 - 60 - 0 = 540 s`, inside the
timer window. -/
def raceW2 : RaceRec :=
  { market_id := "1.20000002", venue := "Crayford", race_time := 600 }

/-! ## Scheduler theorems -/

/-- C1 (Scheduler dedup): a `_schedule_race` call for a market already in
`scheduled_races` returns the state unchanged with a no-op action — no timer
armed, no Race Processor run, `scheduled_races` and `active_timers` untouched; and
once a call has armed a timer for a market, every further offer of that market is
such a no-op, so at most one schedule entry exists per event identifier however
often the event is re-offered across overlapping polls. -/
theorem schedule_race_dedup_invariant :
    (∀ cfg st race now pr, race.market_id ∈ st.scheduled_races →
      schedule_race cfg st race now pr = (st, SchedAction.noop)) ∧
    (∀ cfg st race now pr st' d,
      schedule_race cfg st race now pr = (st', SchedAction.timerArmed d) →
      ∀ now2 pr2, schedule_race cfg st' race now2 pr2 = (st', SchedAction.noop)) := by
  constructor
  · intro cfg st race now pr h
    simp [schedule_race, h]
  · intro cfg st race now pr st' d h now2 pr2
    by_cases hmem : race.market_id ∈ st.scheduled_races
    · simp [schedule_race, hmem] at h
    · unfold schedule_race at h
      rw [if_neg hmem] at h
      simp only [] at h
      split at h
      · simp at h
      · split at h
        · simp at h
        · injection h with h1 h2
          subst h1
          simp [schedule_race, Finset.mem_insert_self]

/-- Witness for C1: offering market `1.230000001` while it is already scheduled is
a no-op. -/
theorem schedule_race_dedup_invariant_witness :
    schedule_race cfgW stW1 raceW1 0 (ProcOutcome.ok 0 0) = (stW1, SchedAction.noop) :=
  schedule_race_dedup_invariant.1 cfgW stW1 raceW1 0 (ProcOutcome.ok 0 0) (by decide)

/-- C2 (Reservation release on processor error): after `_process_scheduled_race`
returns — whatever `system.process_race` did, including raising — the market is in
neither `scheduled_races` nor `active_timers`, and a later `_schedule_race` call for
the same market with a delay inside the timer window arms a timer and re-records the
reservation: no event identifier becomes permanently unschedulable. -/
theorem process_scheduled_race_releases (st : SchedState) (mid : String)
    (pr : ProcOutcome) :
    mid ∉ (process_scheduled_race st mid pr).scheduled_races ∧
    mid ∉ (process_scheduled_race st mid pr).active_timers ∧
    (∀ cfg race now2 pr2, race.market_id = mid →
      0 ≤ race.race_time - cfg.target_minutes_before_race * 60 - now2 →
      race.race_time - cfg.target_minutes_before_race * 60 - now2 ≤
        cfg.scan_interval_minutes * 60 →
      (schedule_race cfg (process_scheduled_race st mid pr) race now2 pr2).2 =
        SchedAction.timerArmed
          (race.race_time - cfg.target_minutes_before_race * 60 - now2) ∧
      mid ∈ (schedule_race cfg (process_scheduled_race st mid pr) race now2
        pr2).1.scheduled_races ∧
      mid ∈ (schedule_race cfg (process_scheduled_race st mid pr) race now2
        pr2).1.active_timers) := by
  refine ⟨Finset.not_mem_erase _ _, Finset.not_mem_erase _ _, ?_⟩
  intro cfg race now2 pr2 hid h0 hwin
  have hmem : race.market_id ∉ (process_scheduled_race st mid pr).scheduled_races := by
    rw [hid]; exact Finset.not_mem_erase _ _
  have hneg : ¬ (race.race_time - cfg.target_minutes_before_race * 60 - now2 < 0) := by
    omega
  have hfar : ¬ (race.race_time - cfg.target_minutes_before_race * 60 - now2 >
      cfg.scan_interval_minutes * 60) := by
    omega
  unfold schedule_race
  rw [if_neg hmem, if_neg hneg, if_neg hfar]
  refine ⟨rfl, ?_, ?_⟩
  · rw [← hid]; exact Finset.mem_insert_self _ _
  · rw [← hid]; exact Finset.mem_insert_self _ _

/-- Witness for C2: market `1.20000002` is released by the cleanup of a raising
processor run, and a re-offer with delay `540 s` arms a timer. -/
theorem process_scheduled_race_releases_witness :
    "1.20000002" ∉ (process_scheduled_race stW2 "1.20000002"
      (ProcOutcome.raised "TypeError")).scheduled_races ∧
    (schedule_race cfgW (process_scheduled_race stW2 "1.20000002"
      (ProcOutcome.raised "TypeError")) raceW2 0 (ProcOutcome.ok 0 0)).2 =
      SchedAction.timerArmed 540 := by
  refine ⟨(process_scheduled_race_releases stW2 "1.20000002"
    (ProcOutcome.raised "TypeError")).1, ?_⟩
  have h := ((process_scheduled_race_releases stW2 "1.20000002"
    (ProcOutcome.raised "TypeError")).2.2 cfgW raceW2 0 (ProcOutcome.ok 0 0)
    rfl (by decide) (by decide)).1
  simpa using h

/-- C8 (Defer correctness): for a market not already scheduled whose delay exceeds
the scan window (with a nonnegative scan interval, as every real configuration
has), `_schedule_race` releases the reservation and returns the state unchanged:
no timer armed, no processor run, and the market is not in `scheduled_races` when
the call returns, so a later poll reconsiders it. -/
theorem schedule_race_defer (cfg : SchedConfig) (st : SchedState) (race : RaceRec)
    (now : Int) (pr : ProcOutcome)
    (hscan : 0 ≤ cfg.scan_interval_minutes)
    (hmem : race.market_id ∉ st.scheduled_races)
    (hfar : race.race_time - cfg.target_minutes_before_race * 60 - now >
      cfg.scan_interval_minutes * 60) :
    schedule_race cfg st race now pr = (st, SchedAction.deferred) ∧
    race.market_id ∉ (schedule_race cfg st race now pr).1.scheduled_races ∧
    (schedule_race cfg st race now pr).1.active_timers = st.active_timers := by
  have hneg : ¬ (race.race_time - cfg.target_minutes_before_race * 60 - now < 0) := by
    omega
  have hmain : schedule_race cfg st race now pr = (st, SchedAction.deferred) := by
    unfold schedule_race
    rw [if_neg hmem, if_neg hneg, if_pos hfar, Finset.erase_insert hmem]
  exact ⟨hmain, by rw [hmain]; exact hmem, by rw [hmain]⟩

/-- Witness for C8: market `1.80000008`, 9940 s of delay against a 900 s window, is
deferred and leaves the empty state unchanged. -/
theorem schedule_race_defer_witness :
    schedule_race cfgW stEmpty raceW8 0 (ProcOutcome.ok 0 0) =
      (stEmpty, SchedAction.deferred) :=
  (schedule_race_defer cfgW stEmpty raceW8 0 (ProcOutcome.ok 0 0)
    (by decide) (by decide) (by decide)).1

/-- C9 (Immediate synchronous execution): for a market not already scheduled (and,
by the `active_timers ⊆ scheduled_races` discipline, with no timer handle) whose
delay is negative, `_schedule_race` runs the Race Processor synchronously in the
calling context, arms no timer (`active_timers` is unchanged), and the reservation
is released by the time the synchronous processing returns. -/
theorem schedule_race_immediate (cfg : SchedConfig) (st : SchedState)
    (race : RaceRec) (now : Int) (pr : ProcOutcome)
    (hmem : race.market_id ∉ st.scheduled_races)
    (htimer : race.market_id ∉ st.active_timers)
    (hlate : race.race_time - cfg.target_minutes_before_race * 60 - now < 0) :
    schedule_race cfg st race now pr = (st, SchedAction.processedNow) ∧
    (schedule_race cfg st race now pr).1.active_timers = st.active_timers ∧
    race.market_id ∉ (schedule_race cfg st race now pr).1.scheduled_races := by
  have hmain : schedule_race cfg st race now pr = (st, SchedAction.processedNow) := by
    unfold schedule_race
    rw [if_neg hmem, if_pos hlate]
    unfold process_scheduled_race
    rw [Finset.erase_insert hmem, Finset.erase_eq_of_not_mem htimer]
  exact ⟨hmain, by rw [hmain], by rw [hmain]; exact hmem⟩

/-- Witness for C9: market `1.90000009`, 1060 s past its processing time, is
processed synchronously from the empty state with no timer created. -/
theorem schedule_race_immediate_witness :
    schedule_race cfgW stEmpty raceW9 1000 (ProcOutcome.raised "TypeError") =
      (stEmpty, SchedAction.processedNow) :=
  (schedule_race_immediate cfgW stEmpty raceW9 1000 (ProcOutcome.raised "TypeError")
    (by decide) (by decide) (by decide)).1

/-! ## Result tracker theorems -/

/-- In a pair list with pairwise-distinct first components (a Python dict), a key
determines its value. -/
theorem assoc_keys_unique {α β : Type} {l : List (α × β)}
    (hnd : (l.map Prod.fst).Nodup) {m : α} {a b : β}
    (ha : (m, a) ∈ l) (hb : (m, b) ∈ l) : a = b := by
  induction l with
  | nil => cases ha
  | cons p t ih =>
    rw [List.map_cons, List.nodup_cons] at hnd
    rcases List.mem_cons.mp ha with ha' | ha'
    · rcases List.mem_cons.mp hb with hb' | hb'
      · rw [← ha'] at hb'
        exact ((Prod.mk.injEq _ _ _ _).mp hb').2.symm
      · exact absurd (List.mem_map.mpr ⟨(m, b), hb', rfl⟩) (ha' ▸ hnd.1)
    · rcases List.mem_cons.mp hb with hb' | hb'
      · exact absurd (List.mem_map.mpr ⟨(m, a), ha', rfl⟩) (hb' ▸ hnd.1)
      · exact ih hnd.2 ha' hb'

/-- When the first logged runner carrying the winning selection id has its `ltp`
present, annotating the entry does not raise. -/
theorem annotate_race_ok (w : Int) (race : RaceData)
    (h : winner_ltp_missing w race = false) :
    ∃ ann, annotate_race (some w) race = .ok ann := by
  unfold winner_ltp_missing at h
  cases hf : race.runners.find? (fun r => r.selection_id == w) with
  | none =>
    refine ⟨{ winner_selection_id := some w, result_checked := true,
              winner_name := none, winner_odds := none }, ?_⟩
    simp only [annotate_race]
    rw [hf]
  | some r =>
    rw [hf] at h
    cases hl : r.ltp with
    | some odds =>
      refine ⟨{ winner_selection_id := some w, result_checked := true,
                winner_name := some r.runner_name,
                winner_odds := some (some odds) }, ?_⟩
      simp only [annotate_race]
      rw [hf]
      simp only [hl]
    | none =>
      simp only [hl, Option.isNone_none] at h
      cases h

/-- When no races-log entry of the checked market records the winner with an
absent `ltp`, the races-log loop completes without raising. -/
theorem races_log_loop_ok (mid : String) (w : Int)
    (races : List (RaceData × Option RaceAnnotations))
    (h : ∀ e ∈ races, e.1.market_id = mid → winner_ltp_missing w e.1 = false) :
    ∃ races2, races_log_loop mid (some w) races = .ok races2 := by
  induction races with
  | nil => exact ⟨[], rfl⟩
  | cons entry rest ih =>
    obtain ⟨rest2, hrest⟩ :=
      ih (fun x hx hm => h x (List.mem_cons_of_mem _ hx) hm)
    by_cases hm : (entry.1.market_id == mid) = true
    · have hmm : entry.1.market_id = mid := by simpa using hm
      obtain ⟨ann, hann⟩ :=
        annotate_race_ok w entry.1 (h entry (List.mem_cons_self _ _) hmm)
      refine ⟨(entry.1, some ann) :: rest2, ?_⟩
      unfold races_log_loop
      rw [if_pos hm, hann, hrest]
    · refine ⟨entry :: rest2, ?_⟩
      unfold races_log_loop
      rw [if_neg hm, hrest]

/-- The races-log entry of the C5 counterexample: market `1.55000005` was hydrated
with the eventual winner (selection `9`) carrying no available back price, so its
logged `ltp` is absent. -/
def rdCE : RaceData :=
  { market_id := "1.55000005", venue := "Oxford", race_time := 1705348000,
    race_grade := "A5",
    runners := [{ selection_id := 9, runner_name := "Silent Dog",
                  trap := some 2, ltp := none }] }

/-- The races log of the C5 counterexample: the one matching, unannotated entry. -/
def racesCE : List (RaceData × Option RaceAnnotations) := [(rdCE, none)]

/-- The market book of the C5 counterexample: selection `9` won. -/
def runnersCE : List (Int × String) := [(7, "LOSER"), (9, "WINNER")]

/-- The bet of the C5 counterexample: 10 at odds 6 on the winning selection `9`. -/
def betCE : Bet :=
  { market_id := "1.55000005", selection_id := 9, runner_name := "Silent Dog",
    runner_odds := 6, stake := 10 }

/-- Counterexample to C5 as stated: the outcome query succeeds and the winning
selection `9` is found, yet the matching bet comes out of `_check_race_result`
un-updated (`won`, `returns` still unset, not the `some true` / `some 60` the
claim requires): the races-log loop, which precedes the bet loop, raises
`TypeError` formatting the winner's absent `ltp`, and the function-level `except`
catches it before any bet is touched. -/
theorem check_race_result_none_ltp_counterexample :
    find_winner runnersCE = some 9 ∧
    (check_race_result "1.55000005" (OutcomeQuery.book runnersCE) racesCE
      [betCE]).2 = [betCE] ∧
    betCE.won = none ∧
    betCE.returns = none ∧
    (update_bet "1.55000005" (some 9) betCE).won = some true :=
  ⟨rfl, rfl, rfl, rfl, rfl⟩

/-- C5 (Reconciliation arithmetic), as amended: when the outcome query returns a
book whose winner is `w` and no races-log entry of the checked market records the
winner with an absent `ltp` (otherwise the races-log loop preceding the bet loop
raises and no bet is updated — see the counterexample), `_check_race_result` maps
the per-bet update over the whole `bets_placed_log`; every record of the checked
market — not only the first — ends with `won = (selection_id == w)`,
`returns = stake * runner_odds` when won else `0`, and `profit = returns - stake`
(so `stake * runner_odds - stake` when won and `-stake` when lost); records of
other markets are untouched. -/
theorem check_race_result_reconciles (mid : String)
    (runners : List (Int × String))
    (races : List (RaceData × Option RaceAnnotations)) (bets : List Bet)
    (w : Int)
    (hw : find_winner runners = some w)
    (hltp : ∀ e ∈ races, e.1.market_id = mid →
      winner_ltp_missing w e.1 = false) :
    (check_race_result mid (OutcomeQuery.book runners) races bets).2 =
      bets.map (update_bet mid (some w)) ∧
    (∀ b : Bet, b.market_id = mid →
      (update_bet mid (some w) b).won = some (b.selection_id == w) ∧
      (update_bet mid (some w) b).returns =
        some (if b.selection_id == w then b.stake * b.runner_odds else 0) ∧
      (update_bet mid (some w) b).profit =
        some ((if b.selection_id == w then b.stake * b.runner_odds else 0) -
          b.stake)) ∧
    (∀ b : Bet, b.market_id ≠ mid → update_bet mid (some w) b = b) := by
  obtain ⟨races2, hok⟩ := races_log_loop_ok mid w races hltp
  refine ⟨?_, ?_, ?_⟩
  · simp only [check_race_result, hw, hok]
  · intro b hb
    refine ⟨?_, ?_, ?_⟩
    · simp [update_bet, hb]
    · simp [update_bet, hb]
    · by_cases hwon : (b.selection_id == w) = true
      · simp [update_bet, hb, hwon]
      · simp only [Bool.not_eq_true] at hwon
        simp [update_bet, hb, hwon, zero_sub]
  · intro b hb
    simp [update_bet, beq_iff_eq, hb]

/-- The market book of the C5 witness: selection `9` won. -/
def runnersW5 : List (Int × String) := [(7, "LOSER"), (9, "WINNER")]

/-- The races-log entry of the C5 witness: the winner's `ltp` was logged as 7.5,
so the races-log loop formats it without raising. -/
def rdW5 : RaceData :=
  { market_id := "1.50000005", venue := "Romford", race_time := 1705347500,
    race_grade := "A6",
    runners := [{ selection_id := 9, runner_name := "Mid Dog",
                  trap := some 2, ltp := some (15 / 2) }] }

/-- The races log of the C5 witness. -/
def racesW5 : List (RaceData × Option RaceAnnotations) := [(rdW5, none)]

/-- A bet of 10 at odds 7.5 on selection `9` of market `1.50000005`. -/
def betW5 : Bet :=
  { market_id := "1.50000005", selection_id := 9, runner_name := "Mid Dog",
    runner_odds := 15 / 2, stake := 10 }

/-- Witness for C5: reconciling market `1.50000005` against a book won by
selection `9`, with the winner's `ltp` present in the races log, marks the bet on
`9` won with returns `75` and profit `65`. -/
theorem check_race_result_reconciles_witness :
    (check_race_result "1.50000005" (OutcomeQuery.book runnersW5) racesW5
      [betW5]).2 = [betW5].map (update_bet "1.50000005" (some 9)) ∧
    (update_bet "1.50000005" (some 9) betW5).returns = some 75 ∧
    (update_bet "1.50000005" (some 9) betW5).profit = some (75 - 10) := by
  have h := check_race_result_reconciles "1.50000005" runnersW5 racesW5 [betW5] 9
    (by decide)
    (by
      intro e he hm
      rw [show racesW5 = [(rdW5, none)] from rfl, List.mem_singleton] at he
      subst he
      rfl)
  have h2 := h.2.1 betW5 rfl
  refine ⟨h.1, ?_, ?_⟩
  · rw [h2.2.1]
    norm_num [betW5]
  · rw [h2.2.2]
    norm_num [betW5]

/-- C4 (Sweep removal is exactly-once and unconditional): a wake of the
result-checker loop at time `now` removes every pending entry whose
`check_time ≤ now` whatever the outcome queries do (succeed, find no winner, or
raise — `query` is arbitrary); the entry's market is checked exactly once during
that sweep; and afterwards the market is absent from `pending_results`, so a
second sweep at any time selects it for no further outcome update. -/
theorem result_sweep_removes_due (now : Int)
    (pending : List (String × PendingEntry)) (query : String → OutcomeQuery)
    (races : List (RaceData × Option RaceAnnotations))
    (bets : List Bet) (mid : String) (entry : PendingEntry)
    (hnd : (pending.map Prod.fst).Nodup)
    (hmem : (mid, entry) ∈ pending)
    (hdue : entry.check_time ≤ now) :
    (mid, entry) ∉ (result_checker_sweep now pending query races bets).1 ∧
    mid ∉ ((result_checker_sweep now pending query races bets).1.map Prod.fst) ∧
    (markets_to_check now pending).count mid = 1 ∧
    (∀ now2, mid ∉ markets_to_check now2
      (result_checker_sweep now pending query races bets).1) := by
  have hp1 : (result_checker_sweep now pending query races bets).1 =
      pending.filter (fun p => decide (¬ p.2.check_time ≤ now)) := rfl
  have hkeys : mid ∉ ((result_checker_sweep now pending query races bets).1.map
      Prod.fst) := by
    rw [hp1]
    intro hmid
    obtain ⟨p, hp, hfst⟩ := List.mem_map.mp hmid
    obtain ⟨m2, e2⟩ := p
    have hpmem := (List.mem_filter.mp hp).1
    have hcond := (List.mem_filter.mp hp).2
    simp only at hfst
    subst hfst
    have he : e2 = entry := assoc_keys_unique hnd hpmem hmem
    subst he
    simp only [decide_eq_true_eq] at hcond
    exact hcond hdue
  refine ⟨?_, hkeys, ?_, ?_⟩
  · rw [hp1]
    intro hmem'
    have hcond := (List.mem_filter.mp hmem').2
    simp only [decide_eq_true_eq] at hcond
    exact hcond hdue
  · have hnd2 : (markets_to_check now pending).Nodup := by
      unfold markets_to_check
      exact ((List.filter_sublist _).map Prod.fst).nodup hnd
    have hmemm : mid ∈ markets_to_check now pending := by
      unfold markets_to_check
      exact List.mem_map.mpr
        ⟨(mid, entry), List.mem_filter.mpr ⟨hmem, by simpa using hdue⟩, rfl⟩
    exact List.count_eq_one_of_mem hnd2 hmemm
  · intro now2 hin
    apply hkeys
    obtain ⟨p, hp, hfst⟩ := List.mem_map.mp hin
    exact List.mem_map.mpr ⟨p, (List.mem_filter.mp hp).1, hfst⟩

/-- The pending map of the C4 witness: one entry, due at `now = 100`. -/
def pendingW4 : List (String × PendingEntry) := [("1.40000004", ⟨100⟩)]

/-- Witness for C4: sweeping `pendingW4` at time 100 with a raising outcome query
removes the due entry, checks it exactly once, and a re-sweep selects nothing. -/
theorem result_sweep_removes_due_witness :
    ("1.40000004", (⟨100⟩ : PendingEntry)) ∉
      (result_checker_sweep 100 pendingW4
        (fun _ => OutcomeQuery.raises "ConnectionError") [] []).1 ∧
    (markets_to_check 100 pendingW4).count "1.40000004" = 1 := by
  have h := result_sweep_removes_due 100 pendingW4
    (fun _ => OutcomeQuery.raises "ConnectionError") [] [] "1.40000004" ⟨100⟩
    (by decide) (by decide) (by decide)
  exact ⟨h.1, h.2.2.1⟩

/-! ## Race processor theorems -/

/-- The empty `GBBettingSystem` in-memory state, as right after `__init__`. -/
def sysEmpty : SysState :=
  { all_races_log := [], all_runners_log := [], bets_placed_log := [],
    pending_results := [] }

/-- C7 (Hydration failure semantics): when `get_race_data` returns `None`,
`process_race` returns the typed failure dict without raising, touching neither
`bets_placed_log` (no bet) nor `pending_results` (no enrollment, so the event is
never outcome-checked); in fact the whole state is unchanged. -/
theorem process_race_hydration_failure (st : SysState) (mid : String)
    (predictions : List Prediction) :
    process_race st mid none predictions =
      (st, ProcOutcome.errorResult "Could not fetch race data") ∧
    (process_race st mid none predictions).1.bets_placed_log =
      st.bets_placed_log ∧
    (process_race st mid none predictions).1.pending_results =
      st.pending_results :=
  ⟨rfl, rfl, rfl⟩

/-- A successfully hydrated race for the C3 evaluation. -/
def rdC3 : RaceData :=
  { market_id := "1.30000003", venue := "Romford", race_time := 1705346100,
    race_grade := "A6",
    runners := [{ selection_id := 101, runner_name := "Fast Dog",
                  trap := some 1, ltp := some 5 }] }

/-- C3 (Persistence failures non-fatal): evaluation of `process_race` at a
successfully hydrated race.  The claim says it returns a result dict and never
raises, converting persistence-sink failures into logged outcomes — and indeed
`DatabaseHelper.log_race` converts its own failures into `False`
(`DatabaseHelper_log_race`) — but the call site binds keyword arguments that
`log_race(self, race_data)` does not declare, so Python raises `TypeError` in
`process_race` itself, before the persistence body could run, and the error
unwinds to the caller. -/
theorem process_race_raises_on_log_race :
    (process_race sysEmpty "1.30000003" (some rdC3) []).2 =
      ProcOutcome.raised
        "TypeError: log_race() got an unexpected keyword argument 'market_id'" ∧
    kwargsBindOk log_race_params log_race_call_kwargs = false ∧
    (∀ connected sqlExec,
      DatabaseHelper_log_race connected sqlExec = true ∨
      DatabaseHelper_log_race connected sqlExec = false) := by
  refine ⟨rfl, rfl, ?_⟩
  intro connected sqlExec
  cases DatabaseHelper_log_race connected sqlExec
  · exact Or.inr rfl
  · exact Or.inl rfl

/-- A successfully hydrated race for the C6 evaluation; its start time is
`1705347000`, so the intended enrollment would carry
`check_time = 1705347000 + 45 * 60 = 1705349700`. -/
def rdC6 : RaceData :=
  { market_id := "1.60000006", venue := "Hove", race_time := 1705347000,
    race_grade := "A3",
    runners := [{ selection_id := 7, runner_name := "Quick Dog",
                  trap := some 3, ltp := some (15 / 2) }] }

/-- A prediction list whose top runner (odds 7.5, calibrated probability 0.40)
would qualify for a mid-range bet. -/
def predsC6 : List Prediction :=
  [{ selection_id := 7, runner_name := "Quick Dog", trap := some 3,
     ltp := 15 / 2, win_probability_calibrated := 40 / 100 }]

/-- C6 (Enrollment with computed check-after time): evaluation of `process_race`
at a successfully hydrated race whose top runner would even qualify for a bet.
The claim says every such call terminates by inserting the market into
`pending_results` with `check_time = race_time + 45 minutes` — the expression at
lines 378–384 does compute exactly that — but the `TypeError` raised at the
earlier `self.db.log_race(...)` call (keyword binding against
`log_race(self, race_data)` fails) aborts `process_race` first, so nothing is
ever enrolled: `pending_results` stays empty. -/
theorem process_race_enrollment_unreachable :
    (process_race sysEmpty "1.60000006" (some rdC6) predsC6).1.pending_results =
      [] ∧
    (process_race sysEmpty "1.60000006" (some rdC6) predsC6).2 =
      ProcOutcome.raised
        "TypeError: log_race() got an unexpected keyword argument 'market_id'" ∧
    result_check_delay_minutes * 60 = 2700 :=
  ⟨rfl, rfl, rfl⟩

/-! ## Strategy classification theorems -/

/-- When the top predicted runner's odds are exactly `10.0`, the mid-range branch
(tested first, both bounds inclusive) captures it: the call returns the mid-range
opportunity iff the calibrated probability reaches the mid-range threshold, and
returns nothing otherwise. -/
theorem identify_at_ten_characterization (grade mid : String)
    (preds : List Prediction) (top : Prediction)
    (htop : pyMaxBy (fun p => p.win_probability_calibrated) preds = some top)
    (hltp : top.ltp = 10) :
    identify_betting_opportunities grade mid preds =
      if midrange_min_probability ≤ top.win_probability_calibrated then
        [create_opportunity top mid
          (if grade ∈ MIDRANGE_PREFERRED_CATEGORIES then "MIDRANGE_PREFERRED"
           else "MIDRANGE_STANDARD")]
      else [] := by
  unfold identify_betting_opportunities
  rw [htop]
  simp only []
  rw [hltp]
  rw [if_pos (by constructor <;> norm_num [midrange_min_odds, midrange_max_odds])]
  by_cases hpr : midrange_min_probability ≤ top.win_probability_calibrated
  · rw [if_pos hpr, if_pos hpr]
    by_cases hg : grade ∈ MIDRANGE_PREFERRED_CATEGORIES
    · rw [if_pos hg, if_pos hg]
    · rw [if_neg hg, if_neg hg]
  · rw [if_neg hpr, if_neg hpr]

/-- C10 (Implicit odds-boundary behavior): the returned opportunity list always
has length at most 1; and whenever the top predicted runner's odds are exactly
`10.0`, the race is classified under the mid-range strategy — every returned
opportunity is a `MIDRANGE` one with the mid-range stake — so a calibrated
probability below the `0.35` mid-range threshold yields no bet (the runner is
never admitted at the `0.25` longshot threshold), and a probability at or above
it yields exactly the one mid-range opportunity. -/
theorem identify_odds_ten_boundary :
    (∀ grade mid preds,
      (identify_betting_opportunities grade mid preds).length ≤ 1) ∧
    (∀ grade mid preds top,
      pyMaxBy (fun p => p.win_probability_calibrated) preds = some top →
      top.ltp = 10 →
      ((∀ o ∈ identify_betting_opportunities grade mid preds,
          o.strategy = "MIDRANGE" ∧ o.stake_recommendation = 10) ∧
       (top.win_probability_calibrated < midrange_min_probability →
          identify_betting_opportunities grade mid preds = []) ∧
       (midrange_min_probability ≤ top.win_probability_calibrated →
          ∃ o, identify_betting_opportunities grade mid preds = [o] ∧
            o.strategy = "MIDRANGE"))) := by
  constructor
  · intro grade mid preds
    unfold identify_betting_opportunities
    cases pyMaxBy (fun p => p.win_probability_calibrated) preds with
    | none => simp
    | some top =>
      simp only []
      split
      · simp
      · simp
  · intro grade mid preds top htop hltp
    have hchar := identify_at_ten_characterization grade mid preds top htop hltp
    by_cases hpr : midrange_min_probability ≤ top.win_probability_calibrated
    · rw [if_pos hpr] at hchar
      have hstrat : ∀ sub, pyInStr "MIDRANGE" sub = true →
          (create_opportunity top mid sub).strategy = "MIDRANGE" ∧
          (create_opportunity top mid sub).stake_recommendation = 10 := by
        intro sub hsub
        constructor <;> simp [create_opportunity, hsub]
      have hsub : pyInStr "MIDRANGE"
          (if grade ∈ MIDRANGE_PREFERRED_CATEGORIES then "MIDRANGE_PREFERRED"
           else "MIDRANGE_STANDARD") = true := by
        by_cases hg : grade ∈ MIDRANGE_PREFERRED_CATEGORIES
        · rw [if_pos hg]; rfl
        · rw [if_neg hg]; rfl
      refine ⟨?_, ?_, ?_⟩
      · intro o ho
        rw [hchar] at ho
        rcases List.mem_singleton.mp ho with rfl
        exact hstrat _ hsub
      · intro hlt
        exact absurd hpr (not_le.mpr hlt)
      · intro _
        exact ⟨_, hchar, (hstrat _ hsub).1⟩
    · rw [if_neg hpr] at hchar
      refine ⟨?_, ?_, ?_⟩
      · intro o ho
        rw [hchar] at ho
        cases ho
      · intro _
        exact hchar
      · intro hge
        exact absurd hge hpr

/-- The prediction list of the C10 witness: the top runner has odds exactly 10.0
and calibrated probability 0.30 — above the longshot threshold, below the
mid-range one. -/
def predsW10 : List Prediction :=
  [{ selection_id := 1, runner_name := "Fav", trap := some 1, ltp := 3,
     win_probability_calibrated := 28 / 100 },
   { selection_id := 2, runner_name := "Boundary Dog", trap := some 2, ltp := 10,
     win_probability_calibrated := 30 / 100 }]

/-- Witness for C10: with the boundary runner at odds 10.0 and probability 0.30,
no opportunity is returned (the longshot threshold does not apply), and the list
length is at most 1. -/
theorem identify_odds_ten_boundary_witness :
    identify_betting_opportunities "A6" "1.100000010" predsW10 = [] ∧
    (identify_betting_opportunities "A6" "1.100000010" predsW10).length ≤ 1 := by
  have htop : pyMaxBy (fun p => p.win_probability_calibrated) predsW10 =
      some { selection_id := 2, runner_name := "Boundary Dog", trap := some 2,
             ltp := 10, win_probability_calibrated := 30 / 100 } := by
    simp only [predsW10, pyMaxBy, List.foldl_cons, List.foldl_nil]
    norm_num
  refine ⟨?_, identify_odds_ten_boundary.1 "A6" "1.100000010" predsW10⟩
  exact (identify_odds_ten_boundary.2 "A6" "1.100000010" predsW10 _ htop
    rfl).2.1 (by norm_num [midrange_min_probability])

/-! ## Supporting invariant: timer handles only for reserved markets

`active_timers` gains a key only in `_schedule_race`'s timer branch, where the
market has just been reserved in `scheduled_races`, and both callbacks remove the
key together with the reservation; so along every transition the key set of
`active_timers` stays inside `scheduled_races`.  This is the discipline that
justifies assuming `market_id ∉ active_timers` for a market with
`market_id ∉ scheduled_races` (as in the immediate-execution theorem). -/

/-- `_process_scheduled_race` preserves `active_timers ⊆ scheduled_races`. -/
theorem process_scheduled_race_timer_discipline (st : SchedState) (mid : String)
    (pr : ProcOutcome) (hsub : st.active_timers ⊆ st.scheduled_races) :
    (process_scheduled_race st mid pr).active_timers ⊆
      (process_scheduled_race st mid pr).scheduled_races :=
  Finset.erase_subset_erase _ hsub

/-- `_schedule_race` preserves `active_timers ⊆ scheduled_races`. -/
theorem schedule_race_timer_discipline (cfg : SchedConfig) (st : SchedState)
    (race : RaceRec) (now : Int) (pr : ProcOutcome)
    (hsub : st.active_timers ⊆ st.scheduled_races) :
    (schedule_race cfg st race now pr).1.active_timers ⊆
      (schedule_race cfg st race now pr).1.scheduled_races := by
  unfold schedule_race
  by_cases hmem : race.market_id ∈ st.scheduled_races
  · rw [if_pos hmem]
    exact hsub
  · rw [if_neg hmem]
    simp only []
    split
    · unfold process_scheduled_race
      intro x hx
      have hxt := Finset.mem_of_mem_erase hx
      have hxne := Finset.ne_of_mem_erase hx
      exact Finset.mem_erase.mpr ⟨hxne, Finset.mem_insert_of_mem (hsub hxt)⟩
    · split
      · intro x hx
        rw [Finset.erase_insert hmem]
        exact hsub hx
      · exact Finset.insert_subset_insert _ hsub
